import Mathlib

/-!
Verification development for the call-site adaptation layer of the Chapel
compiler (src/compiler/resolution/wrappers.cpp).  The AST entities that the
layer manipulates are shallowly embedded: procedures, formals and symbols
become Lean structures, flag sets become lists over a closed enumeration,
and the external collaborators of the layer (canDispatch, canCoerce,
isDispatchParent, blankIntentForType, type predicates, the param map) are
bundled in an oracle structure, exactly as the specification lists them as
interfaces consumed from the surrounding resolution pass.
-/

set_option maxHeartbeats 1000000
set_option linter.unusedVariables false

namespace ChapelWrappers

/-- The closed enumeration of AST flags used by wrappers.cpp (symbol.h keeps
the full enumeration; only the flags this translation unit reads or writes
are embedded). -/
inductive Flag where
  | wrapper
  | invisible_fn
  | inline
  | init_copy_fn
  | auto_copy_fn
  | auto_destroy_fn
  | donor_fn
  | no_parens
  | constructor
  | field_accessor
  | ref_to_const
  | method
  | method_primary
  | assignop
  | default_constructor
  | last_resort
  | compiler_generated
  | was_compiler_generated
  | promotion_wrapper
  | iterator_fn
  | inline_iterator
  | generic
  | is_meme
  | type_variable
  | wrap_written_formal
  | maybe_param
  | maybe_type
  | expr_temp
  | coerce_temp
  | arg_this
  | const
  | ref_for_const_field_of_this
  | insert_auto_destroy
  | type_constructor
  | instantiated_param
deriving DecidableEq, Repr

/-- Symbol::addFlag, modelled on flag lists: appends the flag when absent. -/
def addFlag (fs : List Flag) (f : Flag) : List Flag :=
  if f ∈ fs then fs else fs ++ [f]

/-- A conditional addFlag: the `if (fn->hasFlag(X)) wrapper->addFlag(X)`
idiom of buildEmptyWrapper. -/
def addFlagIf (c : Bool) (f : Flag) (fs : List Flag) : List Flag :=
  if c then addFlag fs f else fs

/-- Symbol::removeFlag. -/
def removeFlag (fs : List Flag) (f : Flag) : List Flag :=
  fs.filter (fun g => g ≠ f)

/-- Symbol::hasFlag as a boolean test on the embedded flag list. -/
def hasFlag (fs : List Flag) (f : Flag) : Bool :=
  decide (f ∈ fs)

/-- IntentTag: the calling-convention tag on a formal (blank, const, in,
out, inout, ref, const ref, param, type). -/
inductive IntentTag where
  | blank
  | const
  | intent_in
  | out
  | inout
  | ref
  | const_ref
  | param
  | intent_type
deriving DecidableEq, Repr

/-- Tests the INTENT_FLAG_REF bit of an intent: set exactly on the ref and
const-ref intents of the enumeration the spec lists. -/
def intentIsRef (i : IntentTag) : Bool :=
  i = IntentTag.ref ∨ i = IntentTag.const_ref

/-- RetTag: value / ref / param / type returning procedures. -/
inductive RetTag where
  | value
  | ref
  | param
  | ret_type
deriving DecidableEq, Repr

/-- Types are identified by the id of their TypeSymbol; the distinguished
global types keep fixed ids. -/
def dtString : Nat := 1

def dtStringC : Nat := 2

def dtTypeDefaultToken : Nat := 3

def dtMethodToken : Nat := 4

/-- ArgSymbol: a formal of a procedure.  The default expression and type
expression are abstracted to the facts wrappers.cpp inspects about them:
whether they are present, whether the default expression is the single
gTypeDefaultToken SymExpr, whether its tail call is an unresolved
chpl__initCopy or _createFieldDefault, and whether the last statement of
the type expression is a PRIM_MOVE. -/
structure Arg where
  id : Nat
  name : String
  type : Nat
  intent : IntentTag
  flags : List Flag
  hasDefaultExpr : Bool
  defaultExprIsTypeDefaultToken : Bool
  defaultExprTailIsInitCopyOrFieldDefault : Bool
  hasTypeExpr : Bool
  typeExprLastIsMove : Bool
deriving DecidableEq, Repr

instance : Inhabited Arg :=
  ⟨{ id := 0, name := "", type := 0, intent := IntentTag.blank, flags := [],
     hasDefaultExpr := false, defaultExprIsTypeDefaultToken := false,
     defaultExprTailIsInitCopyOrFieldDefault := false,
     hasTypeExpr := false, typeExprLastIsMove := false }⟩

def Arg.hasFlag (a : Arg) (f : Flag) : Bool :=
  ChapelWrappers.hasFlag a.flags f

/-- A resolved symbol standing for an actual of the call (CallInfo keeps the
resolved identities of the actuals). -/
structure Sym where
  id : Nat
  type : Nat
  flags : List Flag
  /-- Some string literal when the symbol is an immediate string VarSymbol. -/
  immString : Option String
deriving DecidableEq, Repr

instance : Inhabited Sym :=
  ⟨{ id := 0, type := 0, flags := [], immString := none }⟩

def Sym.hasFlag (s : Sym) (f : Flag) : Bool :=
  ChapelWrappers.hasFlag s.flags f

/-- FnSymbol: a procedure.  `thisIsRef` embeds
fn->_this->type->symbol->hasFlag(FLAG_REF), `thisType` the id of the
receiver type, and `returnsVoid` the void-return test of
buildPromotionWrapper (getReturnSymbol() == gVoid, or retType == dtVoid for
an external procedure). -/
structure Fn where
  id : Nat
  name : String
  cname : String
  flags : List Flag
  retTag : RetTag
  retType : Nat
  formals : List Arg
  throws : Bool
  thisIsRef : Bool
  thisType : Nat
  returnsVoid : Bool
deriving DecidableEq, Repr

def Fn.hasFlag (fn : Fn) (f : Flag) : Bool :=
  ChapelWrappers.hasFlag fn.flags f

/-- FnSymbol::isIterator - checks FLAG_ITERATOR_FN. -/
def Fn.isIterator (fn : Fn) : Bool :=
  fn.hasFlag Flag.iterator_fn

/-- CallInfo: the transient per-call-site record with the ordered actual
expressions of the call (by expression id), the parallel arrays of resolved
actual symbols and actual names, and the square-bracket flag of the call. -/
structure CallInfoM where
  callActuals : List Nat
  actuals : List Sym
  actualNames : List (Option String)
  square : Bool
deriving DecidableEq, Repr

/-- The cast a single coercion step chooses, by the type of the actual:
readFE for a synchronized actual, readFF for a single-assignment actual,
PRIM_DEREF for a reference actual, and the generic createCast call
otherwise. -/
inductive CastKind where
  | readFE
  | readFF
  | deref
  | genericCast
deriving DecidableEq, Repr

/-- The external collaborators of the layer, bundled as oracles: the type
predicates, intent resolver and param map the spec lists as interfaces
consumed from the surrounding resolution pass.  canDispatch returns the
pair (result, promotes-out-parameter). -/
structure Oracles where
  canDispatch : Nat → Nat → Nat → Nat → Bool × Bool
  canCoerce : Nat → Nat → Nat → Nat → Bool
  isDispatchParent : Nat → Nat → Bool
  isRecordWrappedType : Nat → Bool
  isSyncType : Nat → Bool
  isSingleType : Nat → Bool
  isString : Nat → Bool
  isRecordOrUnion : Nat → Bool
  /-- makeRefType followed by reading type->refType (asserted non-null). -/
  refTypeOf : Nat → Nat
  /-- Type::getRefType - none when no reference type was built. -/
  getRefType : Nat → Option Nat
  typeIsRef : Nat → Bool
  typeIsTuple : Nat → Bool
  typeIsIteratorRecord : Nat → Bool
  getValType : Nat → Nat
  blankIntentForType : Nat → IntentTag
  concreteIntentForArg : Arg → IntentTag
  /-- The process-wide paramMap: the value of an instantiated param formal. -/
  paramMap : Nat → Option Nat
  /-- AggregateType::getField(name, false) on the receiver type: does the
  type define a field of this name whose defPoint parent is the type
  itself. -/
  hasOwnField : Nat → String → Bool
  /-- The type resolveCall gives a coercion temp after the inserted cast
  (by cast kind, actual type and formal type). -/
  coerceResultType : CastKind → Nat → Nat → Nat

/-- copyFormalForWrapper (wrappers.cpp): copy a formal and make the copy
have blank intent; an out or inout or already-written formal marks the copy
written; ref and const-ref intents survive. -/
def copyFormalForWrapper (formal : Arg) : Arg :=
  let wrapperFormal := formal
  let wrapperFormal :=
    if formal.intent = IntentTag.out ∨ formal.intent = IntentTag.inout ∨
        formal.hasFlag Flag.wrap_written_formal then
      { wrapperFormal with flags := addFlag wrapperFormal.flags Flag.wrap_written_formal }
    else
      wrapperFormal
  let wrapperFormal :=
    if formal.intent ≠ IntentTag.ref ∧ formal.intent ≠ IntentTag.const_ref then
      { wrapperFormal with intent := IntentTag.blank }
    else
      wrapperFormal
  wrapperFormal

/-- buildEmptyWrapper (wrappers.cpp): a fresh FnSymbol with the callee name,
the forwarded flag set, the callee retTag unless the callee is an iterator,
and the throws marker.  The instantiation point bookkeeping is not part of
the embedded state.  `newId` is the identity of the freshly allocated
FnSymbol. -/
def buildEmptyWrapper (fn : Fn) (newId : Nat) : Fn :=
  let fs := addFlag [] Flag.wrapper
  let fs := addFlag fs Flag.invisible_fn
  let fs := addFlag fs Flag.inline
  let fs := addFlagIf (fn.hasFlag Flag.init_copy_fn) Flag.init_copy_fn fs
  let fs := addFlagIf (fn.hasFlag Flag.auto_copy_fn) Flag.auto_copy_fn fs
  let fs := addFlagIf (fn.hasFlag Flag.auto_destroy_fn) Flag.auto_destroy_fn fs
  let fs := addFlagIf (fn.hasFlag Flag.donor_fn) Flag.donor_fn fs
  let fs := addFlagIf (fn.hasFlag Flag.no_parens) Flag.no_parens fs
  let fs := addFlagIf (fn.hasFlag Flag.constructor) Flag.constructor fs
  let fs := addFlagIf (fn.hasFlag Flag.field_accessor) Flag.field_accessor fs
  let fs := addFlagIf (fn.hasFlag Flag.ref_to_const) Flag.ref_to_const fs
  let retTag := if fn.isIterator then RetTag.value else fn.retTag
  let fs := addFlagIf (fn.hasFlag Flag.method) Flag.method fs
  let fs := addFlagIf (fn.hasFlag Flag.method_primary) Flag.method_primary fs
  let fs := addFlagIf (fn.hasFlag Flag.assignop) Flag.assignop fs
  let fs := addFlagIf (fn.hasFlag Flag.default_constructor) Flag.default_constructor fs
  let fs := addFlagIf (fn.hasFlag Flag.last_resort) Flag.last_resort fs
  let fs := addFlagIf (fn.hasFlag Flag.compiler_generated) Flag.was_compiler_generated fs
  let fs := addFlag fs Flag.compiler_generated
  { id := newId
    name := fn.name
    cname := fn.name
    flags := fs
    retTag := retTag
    retType := 0
    formals := []
    throws := fn.throws
    thisIsRef := fn.thisIsRef
    thisType := fn.thisType
    returnsVoid := false }

/-!
## Reorder stage (reorderActuals)

reorderActuals first scans the formals against the actualFormals array to
build formalsToFormals (the index, per formal position, of the actual that
targets that formal) and the needToReorder bit; when reordering is needed
it removes every actual expression from the call and reinserts them in
formal order, and permutes the parallel CallInfo arrays of actual symbols
and actual names by the same permutation.
-/

/-- The inner loop of the scan: walk actualFormals with index j; each entry
equal to the current formal records its index in formalsToFormals at the
formal position and raises needToReorder when the positions differ. -/
def reorderInnerScan (formal : Arg) (i : Nat) :
    List Arg → Nat → List Nat × Bool → List Nat × Bool
  | [], _, acc => acc
  | af :: rest, j, (f2f, ntr) =>
      let acc :=
        if af = formal then (f2f.set i j, ntr || decide (i ≠ j)) else (f2f, ntr)
      reorderInnerScan formal i rest (j + 1) acc

/-- The outer loop of the scan: walk the formals with index i. -/
def reorderOuterScan (afs : List Arg) :
    List Arg → Nat → List Nat × Bool → List Nat × Bool
  | [], _, acc => acc
  | formal :: fs, i, acc =>
      reorderOuterScan afs fs (i + 1) (reorderInnerScan formal i afs 0 acc)

/-- formalsToFormals and needToReorder as reorderActuals computes them
(formalsToFormals starts as a zero-filled vector of the argument count). -/
def reorderCompute (formals afs : List Arg) : List Nat × Bool :=
  reorderOuterScan afs formals 0 (List.replicate afs.length 0, false)

/-- reorderActuals (wrappers.cpp): returns the updated CallInfo and the
number of actual expressions removed and reinserted (zero when the
identity mapping holds and the reorder is skipped). -/
def reorderActuals (fn : Fn) (afs : List Arg) (info : CallInfoM) :
    CallInfoM × Nat :=
  let numArgs := afs.length
  let scan := reorderCompute fn.formals afs
  let f2f := scan.1
  let needToReorder := scan.2
  if needToReorder then
    ({ info with
        callActuals := f2f.map (fun k => info.callActuals.getD k 0)
        actuals := f2f.map (fun k => info.actuals.getD k default)
        actualNames := f2f.map (fun k => info.actualNames.getD k none) },
      numArgs)
  else
    (info, 0)

/-- The position of the first occurrence of an element in a list (the index
an actual-to-formal entry is recorded under by the scan). -/
def idxOf (afs : List Arg) (a : Arg) : Nat :=
  match afs with
  | [] => 0
  | x :: rest => if x = a then 0 else idxOf rest a + 1

/-!
## Coercion stage (coerceActuals)

For each formal position the stage decides "needs coercion" with
needToAddCoercion and, when yes, inserts one coercion step with
addArgCoercion (or swaps a string literal for a C-string symbol in place),
re-testing inside a do-while loop whose counter starts at six; after the
loop INT_ASSERT(c2 == false) makes a seventh pending re-check an internal
invariant failure.  The stage is skipped wholesale when the callee has the
param return tag.
-/

/-- getIntent (wrappers.cpp): blank and const intents of a non
iterator-record formal resolve through concreteIntentForArg. -/
def getIntent (O : Oracles) (formal : Arg) : IntentTag :=
  if (formal.intent = IntentTag.blank ∨ formal.intent = IntentTag.const) ∧
      ¬ O.typeIsIteratorRecord formal.type then
    O.concreteIntentForArg formal
  else
    formal.intent

/-- needToAddCoercion (wrappers.cpp): equal types need none; a reference to
the formal type under a ref or const-ref intent needs none; canCoerce or a
dispatch-parent relation needs one; anything else needs none. -/
def needToAddCoercion (O : Oracles) (actualType : Nat) (actualSym : Sym)
    (formal : Arg) (fn : Fn) : Bool :=
  let formalType := formal.type
  if actualType = formalType then
    false
  else if O.getRefType formalType = some actualType ∧
      intentIsRef (getIntent O formal) then
    false
  else if O.canCoerce actualType actualSym.id formalType fn.id then
    true
  else if O.isDispatchParent actualType formalType then
    true
  else
    false

/-- The observable mutations a coercion step makes before the call: the
def+move of a coercion temp, or the in-place swap of an immediate string
literal for a C-string symbol. -/
inductive CoerceEff where
  | insertCast (tempId : Nat) (kind : CastKind) (fromSym : Nat) (toType : Nat)
  | swapCString (lit : String)
deriving DecidableEq, Repr

/-- addArgCoercion (wrappers.cpp): create the coerce_tmp (propagating
this-ness for an upcast receiver), choose the cast by the type of the
actual, raise checkAgain for the readFE / readFF / dereference cases,
propagate const-ness markers on a dereference, mark a string temp for auto
destroy, and record the def+move inserted before the enclosing statement.
Returns the new actual symbol, the inserted effects, checkAgain, and the
advanced fresh-id counter. -/
def addArgCoercion (O : Oracles) (formal : Arg) (actualSym : Sym)
    (fresh : Nat) : Sym × List CoerceEff × Bool × Nat :=
  let ats := actualSym.type
  let fts := formal.type
  let castTempId := fresh
  let flags0 := addFlag [] Flag.coerce_temp
  let flags0 :=
    if actualSym.hasFlag Flag.arg_this ∧ O.isDispatchParent ats fts then
      addFlag flags0 Flag.arg_this
    else flags0
  if O.isSyncType ats then
    let ty := O.coerceResultType CastKind.readFE ats fts
    ({ id := castTempId, type := ty, flags := flags0, immString := none },
      [CoerceEff.insertCast castTempId CastKind.readFE actualSym.id fts],
      true, fresh + 1)
  else if O.isSingleType ats then
    let ty := O.coerceResultType CastKind.readFF ats fts
    ({ id := castTempId, type := ty, flags := flags0, immString := none },
      [CoerceEff.insertCast castTempId CastKind.readFF actualSym.id fts],
      true, fresh + 1)
  else if O.typeIsRef ats ∧
      ¬ (O.typeIsTuple (O.getValType ats) ∧ O.typeIsTuple (O.getValType fts)) then
    let flags1 :=
      if actualSym.hasFlag Flag.ref_to_const then
        let f := addFlag flags0 Flag.const
        if actualSym.hasFlag Flag.ref_for_const_field_of_this then
          addFlag f Flag.ref_for_const_field_of_this
        else f
      else flags0
    let ty := O.coerceResultType CastKind.deref ats fts
    ({ id := castTempId, type := ty, flags := flags1, immString := none },
      [CoerceEff.insertCast castTempId CastKind.deref actualSym.id fts],
      true, fresh + 1)
  else
    let flags1 :=
      if O.isString fts then addFlag flags0 Flag.insert_auto_destroy else flags0
    let ty := O.coerceResultType CastKind.genericCast ats fts
    ({ id := castTempId, type := ty, flags := flags1, immString := none },
      [CoerceEff.insertCast castTempId CastKind.genericCast actualSym.id fts],
      false, fresh + 1)

/-- The per-position mutable state of the coercion loop: the identity of
the current actual expression, the current actual symbol, and the fresh-id
counter for newly created symbols. -/
structure PosState where
  exprId : Nat
  sym : Sym
  fresh : Nat
deriving DecidableEq, Repr

/-- One execution of the do-while body: re-read the actual type, reset c2,
and when coercion is needed either swap a string literal in place (no
re-check, and the actual symbol is deliberately not updated) or insert one
coercion step via addArgCoercion. -/
def coerceIterBody (O : Oracles) (fn : Fn) (formal : Arg) (st : PosState) :
    PosState × List CoerceEff × Bool :=
  let actualType := st.sym.type
  if needToAddCoercion O actualType st.sym formal fn then
    if formal.type = dtStringC ∧ actualType = dtString ∧
        st.sym.immString.isSome then
      ({ st with exprId := st.fresh, fresh := st.fresh + 1 },
        [CoerceEff.swapCString (st.sym.immString.getD "")], false)
    else
      let r := addArgCoercion O formal st.sym st.fresh
      ({ exprId := r.1.id, sym := r.1, fresh := r.2.2.2 }, r.2.1, r.2.2.1)
  else
    (st, [], false)

/-- The do-while loop of coerceActuals for one formal position, with the
counter that the source caps (arbitrarily) at six: run the body, then
continue while c2 is raised and the decremented counter is still positive.
Returns the final state, the inserted effects, the final c2, and the number
of iterations executed. -/
def coerceLoop (O : Oracles) (fn : Fn) (formal : Arg) :
    Nat → PosState → PosState × List CoerceEff × Bool × Nat
  | 0, st =>
      let r := coerceIterBody O fn formal st
      (r.1, r.2.1, r.2.2, 1)
  | Nat.succ m, st =>
      let r := coerceIterBody O fn formal st
      if r.2.2 ∧ m > 0 then
        let rest := coerceLoop O fn formal m r.1
        (rest.1, r.2.1 ++ rest.2.1, rest.2.2.1, rest.2.2.2 + 1)
      else
        (r.1, r.2.1, r.2.2, 1)

/-- One formal position of coerceActuals: the do-while loop entered with
checksLeft = 6 followed by INT_ASSERT(c2 == false), an internal invariant
failure (not a silent recovery) when the chain has not reached a fixed
point. -/
def coercePosition (O : Oracles) (fn : Fn) (formal : Arg) (st : PosState) :
    Except String (PosState × List CoerceEff × Nat) :=
  let r := coerceLoop O fn formal 6 st
  if r.2.2.1 then
    Except.error "INT_ASSERT: c2 == false failed after six coercion checks"
  else
    Except.ok (r.1, r.2.1, r.2.2.2)

/-- The loop of coerceActuals over the formals, walking the call actuals in
parallel; the final coercion temp replaces the actual expression of the
call, while the CallInfo actuals array keeps the original symbols (as in
the source, which never writes info.actuals back). -/
def coerceAll (O : Oracles) (fn : Fn) :
    List Arg → Nat → CallInfoM → List CoerceEff → Nat →
    Except String (CallInfoM × List CoerceEff × Nat)
  | [], _, info, effs, fresh => Except.ok (info, effs, fresh)
  | formal :: rest, j, info, effs, fresh =>
      let actualSym := info.actuals.getD j default
      let exprId := info.callActuals.getD j 0
      match coercePosition O fn formal
          { exprId := exprId, sym := actualSym, fresh := fresh } with
      | Except.error e => Except.error e
      | Except.ok r =>
          let info1 :=
            { info with callActuals := info.callActuals.set j r.1.exprId }
          coerceAll O fn rest (j + 1) info1 (effs ++ r.2.1) r.1.fresh

/-- coerceActuals (wrappers.cpp): skipped wholesale for a param-returning
callee (the call will be folded away, and an eager readFE would persist);
otherwise each formal position runs the capped coercion loop. -/
def coerceActuals (O : Oracles) (fn : Fn) (info : CallInfoM) (fresh : Nat) :
    Except String (CallInfoM × List CoerceEff × Nat) :=
  if fn.retTag = RetTag.param then
    Except.ok (info, [], fresh)
  else
    coerceAll O fn fn.formals 0 info [] fresh

/-!
## Default-value wrapper (wrapDefaultedFormals)

The wrapper body is embedded as a list of body operations: the statements
the builder appends for the receiver scaffold of a specialized default
constructor, for each supplied formal, and for each defaulted formal
(either a copy of the default expression of the formal or the default
value of its type).  The caches live in caches.cpp, outside the staged
sources, and are modelled from the spec.
-/

/-- The statements the default-wrapper builder appends to the wrapper body,
abstracted to their kind and the names they mention. -/
inductive BodyOp where
  | defThis
  | moveThisAlloc
  | setcidThis
  | initFieldsThis
  | defTemp (name : String) (flags : List Flag)
  | moveRefArgTemp (formalName : String)
  | copyTypeExprInto
  | moveTypeArgInit (formalName : String)
  | assignTypeArgFromFormal (formalName : String)
  | autoCopyField (fieldName : String)
  | setMember (fieldName : String)
  | copyDefaultExprInto
  | moveTempInitCopy
  | moveTempFromTail
  | moveTempAddrOfTail
  | moveTempInitOfMoveLhs
  | moveTempInitOfTail
  | moveTempTailTypeVar
  | moveTempTypeSymbol (ty : Nat)
  | moveTempInitOfTypeSymbol (ty : Nat)
deriving DecidableEq, Repr

/-- defaultedFormalApplyDefaultForType (wrappers.cpp): populate the default
temp from the default value of the type of the formal.  With a type
expression, its body is copied in and the temp is moved from PRIM_INIT of
its trailing expression (reusing the left-hand side when the trailing
expression is already a PRIM_MOVE), or bound directly for a type-variable
formal; without one, PRIM_INIT of the type symbol (or the type symbol
itself for a type-variable formal). -/
def defaultedFormalApplyDefaultForType (formal : Arg) : List BodyOp :=
  if formal.hasTypeExpr then
    [BodyOp.copyTypeExprInto] ++
      (if formal.hasFlag Flag.type_variable then
        [BodyOp.moveTempTailTypeVar]
      else if formal.typeExprLastIsMove then
        [BodyOp.moveTempInitOfMoveLhs]
      else
        [BodyOp.moveTempInitOfTail])
  else
    if formal.hasFlag Flag.type_variable then
      [BodyOp.moveTempTypeSymbol formal.type]
    else
      [BodyOp.moveTempInitOfTypeSymbol formal.type]

/-- The resolved intent formalIsDefaulted computes for the defaulted
formal: a blank intent on a type other than the type-default and
method-token sentinels resolves through blankIntentForType. -/
def resolvedDefaultIntent (O : Oracles) (formal : Arg) : IntentTag :=
  if formal.type ≠ dtTypeDefaultToken ∧ formal.type ≠ dtMethodToken ∧
      formal.intent = IntentTag.blank then
    O.blankIntentForType formal.type
  else
    formal.intent

/-- formalIsDefaulted (wrappers.cpp): materialize the default_arg temp
(marked maybe_param and expr_temp unless the resolved intent is inout or
out), populate it from the default value of the type when the resolved
intent is out, the default expression is absent, or it is the
type-default sentinel - and otherwise from a copy of the default
expression of the formal (wrapped in chpl__initCopy for a specialized
default constructor unless the copied expression already ends in
chpl__initCopy or _createFieldDefault, or taken by address under a ref
intent); a specialized default constructor also stores the temp into the
field of the same name. -/
def formalIsDefaulted (O : Oracles) (fn : Fn) (formal : Arg) : List BodyOp :=
  let specializeDefaultConstructor :=
    fn.hasFlag Flag.default_constructor ∧ ¬ fn.thisIsRef
  let intent := resolvedDefaultIntent O formal
  let tempFlags :=
    if intent ≠ IntentTag.inout ∧ intent ≠ IntentTag.out then
      addFlag (addFlag [] Flag.maybe_param) Flag.expr_temp
    else
      []
  let tempFlags :=
    if formal.hasFlag Flag.type_variable then
      addFlag tempFlags Flag.type_variable
    else
      tempFlags
  let initOps :=
    if intent = IntentTag.out ∨ ¬ formal.hasDefaultExpr ∨
        formal.defaultExprIsTypeDefaultToken then
      defaultedFormalApplyDefaultForType formal
    else
      [BodyOp.copyDefaultExprInto] ++
        (if specializeDefaultConstructor then
          (if formal.defaultExprTailIsInitCopyOrFieldDefault then
            [BodyOp.moveTempFromTail]
          else
            [BodyOp.moveTempInitCopy])
        else if intentIsRef intent then
          [BodyOp.moveTempAddrOfTail]
        else
          [BodyOp.moveTempFromTail])
  let setMemberOps :=
    if specializeDefaultConstructor ∧ fn.name ≠ "_construct__tuple" ∧
        ¬ formal.hasFlag Flag.type_variable ∧
        O.hasOwnField fn.thisType formal.name then
      [BodyOp.setMember formal.name]
    else
      []
  [BodyOp.defTemp ("default_arg" ++ formal.name) tempFlags] ++ initOps ++
    setMemberOps

/-- updateWrapCall (wrappers.cpp), abstracted to the body statements it
appends: a specialized default constructor (other than the tuple
constructor) copies a non-type non-param non-method-token argument with
chpl__autoCopy and stores it into the field of the same name when the
receiver type defines that field itself. -/
def updateWrapCall (O : Oracles) (fn : Fn) (formal : Arg) : List BodyOp :=
  if fn.hasFlag Flag.default_constructor ∧ ¬ fn.thisIsRef ∧
      fn.name ≠ "_construct__tuple" ∧
      ¬ formal.hasFlag Flag.type_variable ∧
      (O.paramMap formal.id).isNone ∧ formal.type ≠ dtMethodToken then
    if O.hasOwnField fn.thisType formal.name then
      [BodyOp.autoCopyField formal.name]
    else
      []
  else
    []

/-- formalIsNotDefaulted (wrappers.cpp), abstracted to body statements: a
reference-typed formal materializes a ref temp by address-of; a
record-wrapped formal of a specialized default constructor with a type
expression materializes a temp from the type expression and assigns the
incoming actual into it; otherwise the copied formal is passed directly.
Each case runs updateWrapCall on the argument it passes. -/
def formalIsNotDefaulted (O : Oracles) (fn : Fn) (formal : Arg) :
    List BodyOp :=
  if O.typeIsRef formal.type then
    [BodyOp.moveRefArgTemp formal.name] ++ updateWrapCall O fn formal
  else if fn.hasFlag Flag.default_constructor ∧ ¬ fn.thisIsRef ∧
      formal.hasTypeExpr ∧ O.isRecordWrappedType formal.type then
    [BodyOp.copyTypeExprInto, BodyOp.moveTypeArgInit formal.name,
      BodyOp.assignTypeArgFromFormal formal.name] ++ updateWrapCall O fn formal
  else
    updateWrapCall O fn formal

/-- buildWrapperForDefaultedFormals (wrappers.cpp): the empty-wrapper
scaffold with the _default_wrap_ mangled name and the mimicked return
type; a specialized default constructor (a default constructor whose
receiver type is not a reference type) removes FLAG_COMPILER_GENERATED
from the wrapper and emits the receiver scaffold; each formal of the
callee is then classified as supplied, param-instantiated, meme, or
defaulted.  Returns the wrapper and its body operations.  The call-info
record only feeds the square-bracket flag of the generated call and the
instantiation-point bookkeeping, neither part of the embedded state. -/
def buildWrapperForDefaultedFormals (O : Oracles) (fn : Fn)
    (info : CallInfoM) (defaults : List Arg) (newId : Nat) :
    Fn × List BodyOp :=
  let wrapper := buildEmptyWrapper fn newId
  let wrapper := { wrapper with cname := "_default_wrap_" ++ fn.cname }
  let wrapper :=
    if ¬ fn.isIterator then { wrapper with retType := fn.retType } else wrapper
  let specializeDefaultConstructor :=
    fn.hasFlag Flag.default_constructor ∧ ¬ fn.thisIsRef
  let wrapper :=
    if specializeDefaultConstructor then
      { wrapper with flags := removeFlag wrapper.flags Flag.compiler_generated }
    else
      wrapper
  let preOps : List BodyOp :=
    if specializeDefaultConstructor then
      [BodyOp.defThis] ++
        (if (defaults.getLastD default).hasFlag Flag.is_meme ∧
            ¬ O.isRecordOrUnion fn.thisType then
          [BodyOp.moveThisAlloc, BodyOp.setcidThis]
        else
          []) ++
        [BodyOp.initFieldsThis]
    else
      []
  let step := fun (acc : List Arg × List BodyOp) (formal : Arg) =>
    if formal ∉ defaults then
      (acc.1 ++ [copyFormalForWrapper formal],
        acc.2 ++ formalIsNotDefaulted O fn formal)
    else if (O.paramMap formal.id).isSome then
      (acc.1, acc.2)
    else if formal.hasFlag Flag.is_meme then
      (acc.1, acc.2)
    else
      (acc.1, acc.2 ++ formalIsDefaulted O fn formal)
  let scanned := fn.formals.foldl step ([], preOps)
  ({ wrapper with formals := scanned.1 }, scanned.2)

/-- The defaults the caller omitted: the formals of the callee no entry of
the actual-to-formal array equals (the first loop of
wrapDefaultedFormals). -/
def computeDefaults (fn : Fn) (afs : List Arg) : List Arg :=
  fn.formals.filter (fun formal => ! afs.any (fun arg => decide (arg = formal)))

/-- The defaults cache: a process-wide mapping from (callee, shape key) to
wrapper, where the shape key is the set of defaulted formals. -/
abbrev DefaultsCache := List (Nat × List Arg × Fn)

/-- The promotions cache: the shape key maps each promoted formal to the
concrete actual type symbol. -/
abbrev PromotionsCache := List (Nat × List (Nat × Nat) × Fn)

/-- Modelled from the spec: checkCache and addCache live in caches.cpp,
outside the staged sources.  The spec describes shape keys as compared by
structural equality on symbol identity, with the default key being the set
of formals the caller omitted; two keys match when they hold the same
elements. -/
def keySetEqArgs (a b : List Arg) : Bool :=
  a.all (fun x => decide (x ∈ b)) && b.all (fun x => decide (x ∈ a))

/-- Modelled from the spec: cache lookup by callee identity and
set-equality of shape keys (defaults cache). -/
def checkCacheDefaults (cache : DefaultsCache) (fnId : Nat)
    (key : List Arg) : Option Fn :=
  match cache with
  | [] => none
  | (f, k, w) :: rest =>
      if f = fnId ∧ keySetEqArgs k key then some w
      else checkCacheDefaults rest fnId key

/-- Modelled from the spec: cache insertion (defaults cache). -/
def addCacheDefaults (cache : DefaultsCache) (fnId : Nat) (key : List Arg)
    (w : Fn) : DefaultsCache :=
  (fnId, key, w) :: cache

/-- Modelled from the spec: promotion shape keys are mappings from promoted
formal to concrete actual type symbol, compared as sets of pairs. -/
def keySetEqSubs (a b : List (Nat × Nat)) : Bool :=
  a.all (fun x => decide (x ∈ b)) && b.all (fun x => decide (x ∈ a))

/-- Modelled from the spec: cache lookup (promotions cache). -/
def checkCachePromotions (cache : PromotionsCache) (fnId : Nat)
    (key : List (Nat × Nat)) : Option Fn :=
  match cache with
  | [] => none
  | (f, k, w) :: rest =>
      if f = fnId ∧ keySetEqSubs k key then some w
      else checkCachePromotions rest fnId key

/-- Modelled from the spec: cache insertion (promotions cache). -/
def addCachePromotions (cache : PromotionsCache) (fnId : Nat)
    (key : List (Nat × Nat)) (w : Fn) : PromotionsCache :=
  (fnId, key, w) :: cache

/-- The process-wide resolution state the layer threads: the two wrapper
caches and the arena counter handing out identities for freshly allocated
nodes. -/
structure RState where
  defaultsCache : DefaultsCache
  promotionsCache : PromotionsCache
  nextId : Nat
deriving Repr

/-- The inner replacement loop updating the actual-to-formal array after
default wrapping: every entry equal to the current formal of the original
callee is replaced by the next formal of the wrapper (getFormal is
one-based). -/
def updateAFInner (formal : Arg) (wFormals : List Arg) :
    List Arg → Nat → List Arg × Nat
  | [], j => ([], j)
  | af :: rest, j =>
      if af = formal then
        let r := updateAFInner formal wFormals rest (j + 1)
        (wFormals.getD (j - 1) default :: r.1, r.2)
      else
        let r := updateAFInner formal wFormals rest j
        (af :: r.1, r.2)

/-- The update of the actual-to-formal array for use in reorderActuals:
walk the formals of the original callee in order, replacing matching
entries with the successive formals of the wrapper. -/
def updateActualFormals (formals : List Arg) (wFormals : List Arg)
    (afs : List Arg) : List Arg :=
  (formals.foldl
    (fun (acc : List Arg × Nat) formal =>
      updateAFInner formal wFormals acc.1 acc.2)
    (afs, 1)).1

/-- wrapDefaultedFormals (wrappers.cpp): compute the omitted formals, look
the pair (callee, defaults) up in the defaults cache, build (and cache) the
wrapper on a miss, and update the actual-to-formal array to point at the
formals of the wrapper.  resolveFormals is an external collaborator and
leaves the embedding unchanged. -/
def wrapDefaultedFormals (O : Oracles) (fn : Fn) (info : CallInfoM)
    (afs : List Arg) (st : RState) : Fn × List Arg × RState :=
  let defaults := computeDefaults fn afs
  let hit := checkCacheDefaults st.defaultsCache fn.id defaults
  let built :=
    match hit with
    | some w => (w, st)
    | none =>
        let b := buildWrapperForDefaultedFormals O fn info defaults st.nextId
        (b.1,
          { st with
              nextId := st.nextId + 1
              defaultsCache :=
                addCacheDefaults st.defaultsCache fn.id defaults b.1 })
  (built.1, updateActualFormals fn.formals built.1.formals afs, built.2)

/-!
## Promotion stage (isPromotionRequired, promotionWrap)

Both the standalone predicate and the detection loop inside promotionWrap
ask canDispatch per formal position, after switching a record-wrapped
actual type (array / domain / dist) to its reference type; the predicate
breaks at the first promoting position, the promotionWrap loop keeps
scanning to collect the substitution map that keys the promotions cache.
-/

/-- The actual type the promotion detection asks canDispatch about: a
record-wrapped actual first switches to its reference type (makeRefType
followed by the asserted-non-null refType read). -/
def promoActualType (O : Oracles) (actual : Sym) : Nat :=
  if O.isRecordWrappedType actual.type then O.refTypeOf actual.type
  else actual.type

/-- The formal loop of isPromotionRequired: break (true) at the first
position where canDispatch succeeds with promotes set. -/
def iprLoop (O : Oracles) (fn : Fn) : List (Arg × Sym) → Bool
  | [] => false
  | (formal, actual) :: rest =>
      let actualType := promoActualType O actual
      let cd := O.canDispatch actualType actual.id formal.type fn.id
      if cd.1 ∧ cd.2 then true else iprLoop O fn rest

/-- isPromotionRequired (wrappers.cpp): no promotion for the assignment
operator or a type constructor; otherwise some formal position must
dispatch with promotion.  The formals walk the CallInfo actuals in
parallel. -/
def isPromotionRequired (O : Oracles) (fn : Fn) (actuals : List Sym) : Bool :=
  if fn.name ≠ "=" ∧ ¬ fn.hasFlag Flag.type_constructor then
    iprLoop O fn (fn.formals.zip actuals)
  else
    false

/-- The detection loop of promotionWrap: scan every formal position,
raising promotion_wrapper_required and recording formal-to-actual-type
substitutions for the promoted positions. -/
def pwScan (O : Oracles) (fn : Fn) :
    List (Arg × Sym) → Bool × List (Nat × Nat) → Bool × List (Nat × Nat)
  | [], acc => acc
  | (formal, actual) :: rest, acc =>
      let actualType := promoActualType O actual
      let cd := O.canDispatch actualType actual.id formal.type fn.id
      pwScan O fn rest
        (if cd.1 ∧ cd.2 then (true, acc.2 ++ [(formal.id, actualType)])
        else acc)

/-- buildPromotionWrapper (wrappers.cpp), abstracted to the wrapper
procedure it allocates: the empty-wrapper scaffold marked
FLAG_PROMOTION_WRAPPER (and stripped of FLAG_DEFAULT_CONSTRUCTOR) with the
_promotion_wrap_ mangled name, formals copied from the callee with
promoted positions retyped to the concrete actual type; a non-void callee
turns the wrapper into a non-inline iterator.  The serial / leader /
follower bodies and the fast-follower probes populate side tables and the
program block, not the wrapper value itself. -/
def buildPromotionWrapper (O : Oracles) (fn : Fn) (info : CallInfoM)
    (promotionSubs : List (Nat × Nat)) (newId : Nat) : Fn :=
  let wrapper := buildEmptyWrapper fn newId
  let wrapper :=
    { wrapper with flags := addFlag wrapper.flags Flag.promotion_wrapper }
  let wrapper :=
    { wrapper with flags := removeFlag wrapper.flags Flag.default_constructor }
  let wrapper := { wrapper with cname := "_promotion_wrap_" ++ fn.cname }
  let formals := (fn.formals.zip info.actuals).map (fun p =>
    let newFormal := copyFormalForWrapper p.1
    match promotionSubs.lookup p.1.id with
    | some ts => { newFormal with type := ts }
    | none => newFormal)
  let wrapper := { wrapper with formals := formals }
  let wrapper :=
    if fn.returnsVoid then
      wrapper
    else
      { wrapper with
          flags := removeFlag (addFlag wrapper.flags Flag.iterator_fn)
            Flag.inline }
  wrapper

/-- The promotion-required branch of promotionWrap: consult the promotions
cache under the substitution key, build and cache the wrapper family on a
miss (resolveFormals is external and leaves the embedding unchanged). -/
def promotionWrapRequired (O : Oracles) (fn : Fn) (info : CallInfoM)
    (subs : List (Nat × Nat)) (st : RState) : Fn × RState :=
  match checkCachePromotions st.promotionsCache fn.id subs with
  | some w => (w, st)
  | none =>
      let w := buildPromotionWrapper O fn info subs st.nextId
      (w,
        { st with
            nextId := st.nextId + 1
            promotionsCache :=
              addCachePromotions st.promotionsCache fn.id subs w })

/-- promotionWrap (wrappers.cpp): the assignment operator and type
constructors return the callee unchanged; otherwise the detection loop
scans all positions and the callee is replaced by the (possibly cached)
promotion wrapper exactly when some position promotes. -/
def promotionWrap (O : Oracles) (fn : Fn) (info : CallInfoM)
    (buildFastFollowerChecks : Bool) (st : RState) : Fn × RState :=
  if fn.name = "=" then
    (fn, st)
  else if fn.hasFlag Flag.type_constructor then
    (fn, st)
  else
    let scan := pwScan O fn (fn.formals.zip info.actuals) (false, [])
    if scan.1 then
      promotionWrapRequired O fn info scan.2 st
    else
      (fn, st)

/-!
## The composition (wrapAndCleanUpActuals)

The four stages in strict order, each behind its guard: default supply
when the call has fewer actuals than the callee has formals, reorder when
the call has more than one actual, coercion when it has any actual, and
promotion when isPromotionRequired holds.  The trace records what each
stage did, including the call-info record as it stood right after the
reorder stage.
-/

/-- What each stage of one wrapAndCleanUpActuals run did. -/
structure PipelineTrace where
  defaultApplied : Bool
  reorderRan : Bool
  reorderRemovals : Nat
  infoAfterReorder : CallInfoM
  coerceEffects : List CoerceEff
  promotionApplied : Bool
deriving Repr

/-- wrapAndCleanUpActuals (wrappers.cpp): the entry point of the layer. -/
def wrapAndCleanUpActuals (O : Oracles) (fn : Fn) (info : CallInfoM)
    (actualIdxToFormal : List Arg) (fastFollowerChecks : Bool)
    (st : RState) :
    Except String (Fn × CallInfoM × List Arg × RState × PipelineTrace) :=
  let numActuals := actualIdxToFormal.length
  let stage1 :=
    if numActuals < fn.formals.length then
      let r := wrapDefaultedFormals O fn info actualIdxToFormal st
      (r.1, r.2.1, r.2.2, true)
    else
      (fn, actualIdxToFormal, st, false)
  let fn1 := stage1.1
  let afs1 := stage1.2.1
  let st1 := stage1.2.2.1
  let stage2 :=
    if afs1.length > 1 then reorderActuals fn1 afs1 info else (info, 0)
  let info2 := stage2.1
  let stage3 :=
    if info2.actuals.length > 0 then coerceActuals O fn1 info2 st1.nextId
    else Except.ok (info2, [], st1.nextId)
  match stage3 with
  | Except.error e => Except.error e
  | Except.ok r3 =>
      let info3 := r3.1
      let st2 := { st1 with nextId := r3.2.2 }
      let stage4 :=
        if isPromotionRequired O fn1 info3.actuals then
          let r := promotionWrap O fn1 info3 fastFollowerChecks st2
          (r.1, r.2, true)
        else
          (fn1, st2, false)
      Except.ok (stage4.1, info3, afs1, stage4.2.1,
        { defaultApplied := stage1.2.2.2
          reorderRan := afs1.length > 1
          reorderRemovals := stage2.2
          infoAfterReorder := info2
          coerceEffects := r3.2.1
          promotionApplied := stage4.2.2 })

/-!
## Verification helpers

Closed forms used by the proofs about the reorder scan, and a concrete
oracle instance plus small concrete procedures, formals and call-info
records used to evaluate the theorems on explicit inputs.
-/

/-- Successive List.set writes at consecutive indices (the shape the outer
reorder scan leaves formalsToFormals in). -/
def setSeq (f2f : List Nat) (i : Nat) : List Nat → List Nat
  | [] => f2f
  | v :: vs => setSeq (f2f.set i v) (i + 1) vs

/-- Whether some formal, counting positions from i, sits at a position
different from the position of its actual (the closed form of the
needToReorder accumulation). -/
def anyMismatch (afs : List Arg) : Nat → List Arg → Bool
  | _, [] => false
  | i, f :: fs => (decide (i ≠ idxOf afs f)) || anyMismatch afs (i + 1) fs

/-- A concrete oracle instance on which every external predicate is
trivial. -/
def O0 : Oracles :=
  { canDispatch := fun _ _ _ _ => (false, false)
    canCoerce := fun _ _ _ _ => false
    isDispatchParent := fun _ _ => false
    isRecordWrappedType := fun _ => false
    isSyncType := fun _ => false
    isSingleType := fun _ => false
    isString := fun _ => false
    isRecordOrUnion := fun _ => false
    refTypeOf := fun t => t
    getRefType := fun _ => none
    typeIsRef := fun _ => false
    typeIsTuple := fun _ => false
    typeIsIteratorRecord := fun _ => false
    getValType := fun t => t
    blankIntentForType := fun _ => IntentTag.const
    concreteIntentForArg := fun a => a.intent
    paramMap := fun _ => none
    hasOwnField := fun _ _ => false
    coerceResultType := fun _ _ f => f }

/-- A concrete formal with out intent and a default expression present. -/
def argOut : Arg :=
  { (default : Arg) with
      id := 10
      name := "x"
      type := 20
      intent := IntentTag.out
      hasDefaultExpr := true }

/-- A concrete plain formal. -/
def argA : Arg :=
  { (default : Arg) with id := 11, name := "a", type := 21 }

/-- A second concrete plain formal. -/
def argB : Arg :=
  { (default : Arg) with id := 12, name := "b", type := 22 }

/-- A concrete callee with the param return tag. -/
def fnParam : Fn :=
  { id := 1, name := "f", cname := "f", flags := [], retTag := RetTag.param,
    retType := 0, formals := [argA], throws := false, thisIsRef := false,
    thisType := 0, returnsVoid := false }

/-- A concrete callee with no formals. -/
def fnNullary : Fn :=
  { id := 2, name := "g", cname := "g", flags := [], retTag := RetTag.value,
    retType := 0, formals := [], throws := false, thisIsRef := false,
    thisType := 0, returnsVoid := true }

/-- A concrete two-formal callee. -/
def fnBinary : Fn :=
  { id := 3, name := "h", cname := "h", flags := [], retTag := RetTag.value,
    retType := 0, formals := [argA, argB], throws := false,
    thisIsRef := false, thisType := 0, returnsVoid := false }

/-- A concrete default constructor whose receiver type is not a reference
type (the specialized case of the default-wrapper builder). -/
def fnCtor : Fn :=
  { id := 4, name := "_construct_R", cname := "_construct_R",
    flags := [Flag.default_constructor], retTag := RetTag.value,
    retType := 30, formals := [argOut], throws := false, thisIsRef := false,
    thisType := 31, returnsVoid := false }

/-- An empty concrete call-info record. -/
def info0 : CallInfoM :=
  { callActuals := [], actuals := [], actualNames := [], square := false }

/-- A concrete call-info record with two actuals. -/
def infoBin : CallInfoM :=
  { callActuals := [101, 102]
    actuals := [{ (default : Sym) with id := 51, type := 22 },
                { (default : Sym) with id := 52, type := 21 }]
    actualNames := [some "b", some "a"]
    square := false }

/-- An empty concrete resolution state. -/
def st0 : RState :=
  { defaultsCache := [], promotionsCache := [], nextId := 100 }

/-- The trace of the concrete nullary run of the entry point. -/
def trace0 : PipelineTrace :=
  { defaultApplied := false
    reorderRan := false
    reorderRemovals := 0
    infoAfterReorder := info0
    coerceEffects := []
    promotionApplied := false }

/-!
# Theorems

First the small facts about flag lists, then one theorem per claim (with a
closed witness or counterexample where one is called for).
-/

theorem mem_addFlag {fs : List Flag} {f g : Flag} :
    g ∈ addFlag fs f ↔ g = f ∨ g ∈ fs := by
  unfold addFlag
  by_cases h : f ∈ fs
  · simp only [if_pos h]
    constructor
    · exact Or.inr
    · rintro (rfl | hg)
      · exact h
      · exact hg
  · simp [if_neg h, or_comm]

theorem mem_addFlagIf {c : Bool} {f g : Flag} {fs : List Flag} :
    g ∈ addFlagIf c f fs ↔ (c = true ∧ g = f) ∨ g ∈ fs := by
  unfold addFlagIf
  cases c <;> simp [mem_addFlag]

theorem mem_removeFlag {fs : List Flag} {f g : Flag} :
    g ∈ removeFlag fs f ↔ g ∈ fs ∧ g ≠ f := by
  simp [removeFlag, List.mem_filter]

theorem hasFlag_iff {fs : List Flag} {f : Flag} :
    hasFlag fs f = true ↔ f ∈ fs := by
  simp [hasFlag]

/-- C8: for every formal copied by the formal-copy utility, the copy
carries the written marker exactly when the source intent is out or inout
or the source already carried the marker; a ref or const-ref source intent
is preserved on the copy, and every other intent flattens to blank. -/
theorem claim_C8_formal_copy_contract (formal : Arg) :
    ((copyFormalForWrapper formal).hasFlag Flag.wrap_written_formal = true ↔
      (formal.intent = IntentTag.out ∨ formal.intent = IntentTag.inout ∨
        formal.hasFlag Flag.wrap_written_formal = true)) ∧
    ((copyFormalForWrapper formal).intent =
      if formal.intent = IntentTag.ref ∨ formal.intent = IntentTag.const_ref
      then formal.intent else IntentTag.blank) := by
  unfold copyFormalForWrapper
  split_ifs with h1 h2 h2 <;>
    simp_all [Arg.hasFlag, hasFlag, mem_addFlag]

/-- C3: if the return tag of the callee is param, the coercion stage does
no work at all - the call info is returned untouched, no effects are
inserted and the fresh-id counter does not advance. -/
theorem claim_C3_param_skips_coercion (O : Oracles) (fn : Fn)
    (info : CallInfoM) (fresh : Nat) (h : fn.retTag = RetTag.param) :
    coerceActuals O fn info fresh = Except.ok (info, [], fresh) := by
  simp [coerceActuals, h]

/-- C3 witness: the concrete param-returning callee at a concrete call. -/
theorem claim_C3_witness :
    coerceActuals O0 fnParam info0 7 = Except.ok (info0, [], 7) :=
  claim_C3_param_skips_coercion O0 fnParam info0 7 rfl

theorem coerceLoop_iters_le (O : Oracles) (fn : Fn) (formal : Arg) :
    ∀ (cl : Nat) (st : PosState),
      (coerceLoop O fn formal cl st).2.2.2 ≤ max 1 cl := by
  intro cl
  induction cl with
  | zero =>
      intro st
      simp [coerceLoop]
  | succ m ih =>
      intro st
      rw [coerceLoop]
      split
      · have h := ih (coerceIterBody O fn formal st).1
        have hm : max 1 m = m := by omega
        simp only []
        omega
      · simp

/-- C2: the per-position insert-coercion-and-re-test loop, entered with
its counter at six, executes at most six iterations; when the re-check
flag is false at exit the position completes normally, and when six
iterations still leave a pending re-check the INT_ASSERT makes it an
internal invariant failure rather than a silent recovery. -/
theorem claim_C2_coercion_loop_capped (O : Oracles) (fn : Fn) (formal : Arg)
    (st : PosState) :
    (coerceLoop O fn formal 6 st).2.2.2 ≤ 6 ∧
    ((coerceLoop O fn formal 6 st).2.2.1 = false →
      coercePosition O fn formal st =
        Except.ok ((coerceLoop O fn formal 6 st).1,
          (coerceLoop O fn formal 6 st).2.1,
          (coerceLoop O fn formal 6 st).2.2.2)) ∧
    ((coerceLoop O fn formal 6 st).2.2.1 = true →
      coercePosition O fn formal st =
        Except.error
          "INT_ASSERT: c2 == false failed after six coercion checks") := by
  refine ⟨?_, ?_, ?_⟩
  · have h := coerceLoop_iters_le O fn formal 6 st
    omega
  · intro h
    simp [coercePosition, h]
  · intro h
    simp [coercePosition, h]

theorem copyDefaultExprInto_not_mem_applyDefaultForType (formal : Arg) :
    BodyOp.copyDefaultExprInto ∉ defaultedFormalApplyDefaultForType formal := by
  unfold defaultedFormalApplyDefaultForType
  split_ifs <;> simp

/-- C9: for a defaulted formal whose resolved intent is out, the default
wrapper initializes the default temporary from the default value of the
type (the defaultedFormalApplyDefaultForType path) and never copies the
default expression of the formal into the wrapper body, even when one is
present. -/
theorem claim_C9_out_default_uses_type_default (O : Oracles) (fn : Fn)
    (formal : Arg) (h : resolvedDefaultIntent O formal = IntentTag.out) :
    (∃ pre post, formalIsDefaulted O fn formal =
        pre ++ defaultedFormalApplyDefaultForType formal ++ post) ∧
    BodyOp.copyDefaultExprInto ∉ formalIsDefaulted O fn formal := by
  have hinit : formalIsDefaulted O fn formal =
      [BodyOp.defTemp ("default_arg" ++ formal.name)
          (if formal.hasFlag Flag.type_variable then
            addFlag [] Flag.type_variable
          else [])] ++
        defaultedFormalApplyDefaultForType formal ++
        (if fn.hasFlag Flag.default_constructor ∧ ¬ fn.thisIsRef ∧
            fn.name ≠ "_construct__tuple" ∧
            ¬ formal.hasFlag Flag.type_variable ∧
            O.hasOwnField fn.thisType formal.name then
          [BodyOp.setMember formal.name]
        else []) := by
    unfold formalIsDefaulted
    rw [h]
    simp [and_assoc]
  refine ⟨⟨_, _, hinit⟩, ?_⟩
  rw [hinit]
  have hd := copyDefaultExprInto_not_mem_applyDefaultForType formal
  simp only [List.mem_append, List.mem_singleton]
  rintro ((hc | hc) | hc)
  · simp at hc
  · exact hd hc
  · split at hc <;> simp at hc

/-- C9 witness: the concrete out-intent formal of the concrete default
constructor, with a default expression present. -/
theorem claim_C9_witness :
    ((∃ pre post, formalIsDefaulted O0 fnCtor argOut =
        pre ++ defaultedFormalApplyDefaultForType argOut ++ post) ∧
      BodyOp.copyDefaultExprInto ∉ formalIsDefaulted O0 fnCtor argOut) :=
  claim_C9_out_default_uses_type_default O0 fnCtor argOut (by decide)

theorem keySetEqArgs_refl (k : List Arg) : keySetEqArgs k k = true := by
  simp [keySetEqArgs, List.all_eq_true]

theorem keySetEqSubs_refl (k : List (Nat × Nat)) : keySetEqSubs k k = true := by
  simp [keySetEqSubs, List.all_eq_true]

theorem checkCacheDefaults_add (c : DefaultsCache) (fnId : Nat)
    (k : List Arg) (w : Fn) :
    checkCacheDefaults (addCacheDefaults c fnId k w) fnId k = some w := by
  simp [checkCacheDefaults, addCacheDefaults, keySetEqArgs_refl]

theorem checkCachePromotions_add (c : PromotionsCache) (fnId : Nat)
    (k : List (Nat × Nat)) (w : Fn) :
    checkCachePromotions (addCachePromotions c fnId k w) fnId k = some w := by
  simp [checkCachePromotions, addCachePromotions, keySetEqSubs_refl]

/-- C7: running the adaptation twice on structurally identical call shapes
returns the same wrapper object - the default stage keyed by (callee, set
of omitted formals) and the promotion stage keyed by (callee,
promoted-position substitution map) both answer the second run from the
cache seeded or hit by the first, leaving the resolution state
unchanged. -/
theorem claim_C7_cache_idempotent (O : Oracles) (fn : Fn) (info : CallInfoM)
    (afs : List Arg) (ffc : Bool) (st : RState) :
    wrapDefaultedFormals O fn info afs
        (wrapDefaultedFormals O fn info afs st).2.2 =
      wrapDefaultedFormals O fn info afs st ∧
    promotionWrap O fn info ffc (promotionWrap O fn info ffc st).2 =
      promotionWrap O fn info ffc st := by
  constructor
  · unfold wrapDefaultedFormals
    cases h : checkCacheDefaults st.defaultsCache fn.id
        (computeDefaults fn afs) with
    | some w => simp [h]
    | none => simp [h, checkCacheDefaults_add]
  · unfold promotionWrap
    by_cases h1 : fn.name = "="
    · simp [h1]
    · by_cases h2 : fn.hasFlag Flag.type_constructor = true
      · simp [h1, h2]
      · by_cases h3 :
          (pwScan O fn (fn.formals.zip info.actuals) (false, [])).1 = true
        · simp only [if_neg h1, if_neg (by simp [h2] : ¬ (fn.hasFlag Flag.type_constructor = true)), h3, if_pos rfl]
          unfold promotionWrapRequired
          cases h4 : checkCachePromotions st.promotionsCache fn.id
              (pwScan O fn (fn.formals.zip info.actuals) (false, [])).2 with
          | some w => simp [h3, h4]
          | none => simp [h3, h4, checkCachePromotions_add]
        · simp [h1, h2, h3]

theorem iprLoop_eq_any (O : Oracles) (fn : Fn) :
    ∀ l : List (Arg × Sym), iprLoop O fn l =
      l.any (fun p =>
        (O.canDispatch (promoActualType O p.2) p.2.id p.1.type fn.id).1 &&
        (O.canDispatch (promoActualType O p.2) p.2.id p.1.type fn.id).2) := by
  intro l
  induction l with
  | nil => simp [iprLoop]
  | cons p rest ih =>
      obtain ⟨formal, actual⟩ := p
      rw [iprLoop]
      by_cases h :
          (O.canDispatch (promoActualType O actual) actual.id formal.type
            fn.id).1 = true ∧
          (O.canDispatch (promoActualType O actual) actual.id formal.type
            fn.id).2 = true
      · simp [h, List.any_cons]
      · simp only [if_neg h, ih, List.any_cons]
        cases hc1 : (O.canDispatch (promoActualType O actual) actual.id
            formal.type fn.id).1 <;>
          cases hc2 : (O.canDispatch (promoActualType O actual) actual.id
              formal.type fn.id).2 <;>
          simp_all

theorem pwScan_fst (O : Oracles) (fn : Fn) :
    ∀ (l : List (Arg × Sym)) (acc : Bool × List (Nat × Nat)),
      (pwScan O fn l acc).1 = (acc.1 || iprLoop O fn l) := by
  intro l
  induction l with
  | nil =>
      intro acc
      simp [pwScan, iprLoop]
  | cons p rest ih =>
      intro acc
      obtain ⟨formal, actual⟩ := p
      rw [pwScan, iprLoop]
      by_cases h :
          (O.canDispatch (promoActualType O actual) actual.id formal.type
            fn.id).1 = true ∧
          (O.canDispatch (promoActualType O actual) actual.id formal.type
            fn.id).2 = true
      · simp [h, ih]
      · simp [h, ih]

/-- C4: promotion is required exactly when the callee is neither the
assignment operator nor a type constructor and canDispatch reports a
promoting dispatch at some actual / formal position, the actual type
first switched to its reference type for a record-wrapped actual; when
the predicate is false the promotion stage leaves the callee and the
resolution state unchanged. -/
theorem claim_C4_promotion_required_iff (O : Oracles) (fn : Fn)
    (actuals : List Sym) :
    (isPromotionRequired O fn actuals = true ↔
      (fn.name ≠ "=" ∧ fn.hasFlag Flag.type_constructor = false ∧
        ∃ p ∈ fn.formals.zip actuals,
          (O.canDispatch (promoActualType O p.2) p.2.id p.1.type
            fn.id).1 = true ∧
          (O.canDispatch (promoActualType O p.2) p.2.id p.1.type
            fn.id).2 = true)) ∧
    (∀ (info : CallInfoM) (ffc : Bool) (st : RState),
      isPromotionRequired O fn info.actuals = false →
      promotionWrap O fn info ffc st = (fn, st)) := by
  constructor
  · unfold isPromotionRequired
    by_cases hg : fn.name ≠ "=" ∧ ¬ fn.hasFlag Flag.type_constructor = true
    · rw [if_pos hg, iprLoop_eq_any]
      simp only [List.any_eq_true, Bool.and_eq_true]
      constructor
      · rintro ⟨p, hp, hpred⟩
        exact ⟨hg.1, by simpa using hg.2, p, hp, hpred⟩
      · rintro ⟨-, -, p, hp, hpred⟩
        exact ⟨p, hp, hpred⟩
    · rw [if_neg hg]
      simp only [Bool.false_eq_true, false_iff]
      rintro ⟨ha, hb, -⟩
      exact hg ⟨ha, by simp [hb]⟩
  · intro info ffc st h
    unfold promotionWrap
    by_cases h1 : fn.name = "="
    · simp [h1]
    · by_cases h2 : fn.hasFlag Flag.type_constructor = true
      · simp [h1, h2]
      · have hipr : iprLoop O fn (fn.formals.zip info.actuals) = false := by
          unfold isPromotionRequired at h
          rwa [if_pos ⟨h1, h2⟩] at h
        have hs := pwScan_fst O fn (fn.formals.zip info.actuals) (false, [])
        rw [hipr] at hs
        simp only [Bool.false_or] at hs
        simp [h1, h2, hs]

/-- C10: the standalone promotion-detection predicate and the detection
loop inside promotionWrap agree - the stage takes its cache-or-build
branch exactly when isPromotionRequired returns true and hands the callee
and state back unchanged exactly when it returns false. -/
theorem claim_C10_promotion_stage_agrees (O : Oracles) (fn : Fn)
    (info : CallInfoM) (ffc : Bool) (st : RState) :
    promotionWrap O fn info ffc st =
      (if isPromotionRequired O fn info.actuals = true then
        promotionWrapRequired O fn info
          (pwScan O fn (fn.formals.zip info.actuals) (false, [])).2 st
      else (fn, st)) := by
  have hs := pwScan_fst O fn (fn.formals.zip info.actuals) (false, [])
  simp only [Bool.false_or] at hs
  unfold promotionWrap isPromotionRequired
  by_cases h1 : fn.name = "="
  · have hng : ¬ (fn.name ≠ "=" ∧ ¬ fn.hasFlag Flag.type_constructor = true) := by
      simp [h1]
    rw [if_pos h1, if_neg hng]
    simp
  · by_cases h2 : fn.hasFlag Flag.type_constructor = true
    · have hng : ¬ (fn.name ≠ "=" ∧ ¬ fn.hasFlag Flag.type_constructor = true) := by
        simp [h2]
      rw [if_neg h1, if_pos h2, if_neg hng]
      simp
    · rw [if_neg h1, if_neg h2]
      rw [if_pos (And.intro h1 h2)]
      simp only [hs]

theorem updateAFInner_length (formal : Arg) (wFormals : List Arg) :
    ∀ (afs : List Arg) (j : Nat),
      (updateAFInner formal wFormals afs j).1.length = afs.length := by
  intro afs
  induction afs with
  | nil =>
      intro j
      simp [updateAFInner]
  | cons af rest ih =>
      intro j
      rw [updateAFInner]
      by_cases h : af = formal <;> simp [h, ih]

theorem updateActualFormals_length (formals wFormals afs : List Arg) :
    (updateActualFormals formals wFormals afs).length = afs.length := by
  unfold updateActualFormals
  suffices h : ∀ (fs : List Arg) (acc : List Arg × Nat),
      ((fs.foldl
        (fun (acc : List Arg × Nat) formal =>
          updateAFInner formal wFormals acc.1 acc.2) acc).1).length =
        acc.1.length by
    exact h formals (afs, 1)
  intro fs
  induction fs with
  | nil =>
      intro acc
      simp
  | cons f rest ih =>
      intro acc
      simp only [List.foldl_cons]
      rw [ih]
      exact updateAFInner_length f wFormals acc.1 acc.2

theorem wrapDefaultedFormals_afs_length (O : Oracles) (fn : Fn)
    (info : CallInfoM) (afs : List Arg) (st : RState) :
    (wrapDefaultedFormals O fn info afs st).2.1.length = afs.length := by
  unfold wrapDefaultedFormals
  cases h : checkCacheDefaults st.defaultsCache fn.id
      (computeDefaults fn afs) with
  | some w => simp [h, updateActualFormals_length]
  | none => simp [h, updateActualFormals_length]

/-- C5: the reorder stage runs only when the call has more than one
actual - with zero or one actuals no reordering is attempted (the guard of
the entry point is false), no actual expression is removed, and the
call-info record reaching the coercion stage is exactly the one that
entered. -/
theorem claim_C5_reorder_needs_two_actuals (O : Oracles) (fn : Fn)
    (info : CallInfoM) (afs : List Arg) (ffc : Bool) (st : RState)
    (h : afs.length ≤ 1) :
    ∀ fnr infor afsr str tr,
      wrapAndCleanUpActuals O fn info afs ffc st =
        Except.ok (fnr, infor, afsr, str, tr) →
      tr.reorderRan = false ∧ tr.reorderRemovals = 0 ∧
        tr.infoAfterReorder = info := by
  intro fnr infor afsr str tr hEq
  unfold wrapAndCleanUpActuals at hEq
  simp only [] at hEq
  by_cases hg : afs.length < fn.formals.length
  · rw [if_pos hg] at hEq
    have hlen : (wrapDefaultedFormals O fn info afs st).2.1.length ≤ 1 := by
      rw [wrapDefaultedFormals_afs_length]
      exact h
    have hno : ¬ ((wrapDefaultedFormals O fn info afs st).2.1.length > 1) := by
      omega
    simp only [if_neg hno, decide_eq_false hno] at hEq
    split at hEq
    · exact absurd hEq (by simp)
    · simp only [Except.ok.injEq, Prod.mk.injEq] at hEq
      obtain ⟨-, -, -, -, htr⟩ := hEq
      subst htr
      exact ⟨rfl, rfl, rfl⟩
  · rw [if_neg hg] at hEq
    have hno : ¬ (afs.length > 1) := by omega
    simp only [if_neg hno, decide_eq_false hno] at hEq
    split at hEq
    · exact absurd hEq (by simp)
    · simp only [Except.ok.injEq, Prod.mk.injEq] at hEq
      obtain ⟨-, -, -, -, htr⟩ := hEq
      subst htr
      exact ⟨rfl, rfl, rfl⟩

/-- C5 witness: the concrete nullary callee called with no actuals. -/
theorem claim_C5_witness :
    trace0.reorderRan = false ∧ trace0.reorderRemovals = 0 ∧
      trace0.infoAfterReorder = info0 :=
  claim_C5_reorder_needs_two_actuals O0 fnNullary info0 [] false st0
    (by decide) fnNullary info0 [] st0 trace0 rfl

theorem buildEmptyWrapper_core_flags (fn : Fn) (newId : Nat) :
    Flag.wrapper ∈ (buildEmptyWrapper fn newId).flags ∧
    Flag.invisible_fn ∈ (buildEmptyWrapper fn newId).flags ∧
    Flag.compiler_generated ∈ (buildEmptyWrapper fn newId).flags ∧
    (Flag.was_compiler_generated ∈ (buildEmptyWrapper fn newId).flags ↔
      fn.hasFlag Flag.compiler_generated = true) := by
  refine ⟨?_, ?_, ?_, ?_⟩ <;>
    simp [buildEmptyWrapper, mem_addFlag, mem_addFlagIf]

theorem buildWrapperForDefaultedFormals_flags (O : Oracles) (fn : Fn)
    (info : CallInfoM) (defaults : List Arg) (newId : Nat) :
    ((buildWrapperForDefaultedFormals O fn info defaults newId).1).flags =
      (if fn.hasFlag Flag.default_constructor ∧ ¬ fn.thisIsRef then
        removeFlag (buildEmptyWrapper fn newId).flags Flag.compiler_generated
      else (buildEmptyWrapper fn newId).flags) := by
  unfold buildWrapperForDefaultedFormals
  simp only []
  split_ifs <;> rfl

theorem buildPromotionWrapper_flags (O : Oracles) (fn : Fn)
    (info : CallInfoM) (subs : List (Nat × Nat)) (newId : Nat) :
    (buildPromotionWrapper O fn info subs newId).flags =
      (if fn.returnsVoid then
        removeFlag
          (addFlag (buildEmptyWrapper fn newId).flags Flag.promotion_wrapper)
          Flag.default_constructor
      else
        removeFlag
          (addFlag
            (removeFlag
              (addFlag (buildEmptyWrapper fn newId).flags
                Flag.promotion_wrapper)
              Flag.default_constructor)
            Flag.iterator_fn)
          Flag.inline) := by
  unfold buildPromotionWrapper
  split_ifs <;> rfl

/-- C1 counterexample: the default wrapper the layer builds for the
concrete default constructor with a non-reference receiver type does not
carry compiler_generated (buildWrapperForDefaultedFormals removes it),
refuting the claim that every wrapper produced by the layer has it set. -/
theorem claim_C1_counterexample :
    (wrapDefaultedFormals O0 fnCtor info0 [] st0).1.hasFlag
      Flag.compiler_generated = false := by
  decide

/-- C1 (amended): every wrapper produced by the layer carries the wrapper
and invisible flags, and was_compiler_generated exactly when the callee
already carried compiler_generated; compiler_generated is set on every
promotion wrapper and on every default wrapper except one built for a
default constructor whose receiver type is not a reference type, where
the default-wrapper builder removes it. -/
theorem claim_C1_wrapper_flags (O : Oracles) (fn : Fn) (info : CallInfoM)
    (defaults : List Arg) (subs : List (Nat × Nat)) (idD idP : Nat) :
    ((buildWrapperForDefaultedFormals O fn info defaults idD).1.hasFlag
        Flag.wrapper = true ∧
      (buildWrapperForDefaultedFormals O fn info defaults idD).1.hasFlag
        Flag.invisible_fn = true ∧
      ((buildWrapperForDefaultedFormals O fn info defaults idD).1.hasFlag
          Flag.compiler_generated = true ↔
        ¬ (fn.hasFlag Flag.default_constructor = true ∧
            fn.thisIsRef = false)) ∧
      ((buildWrapperForDefaultedFormals O fn info defaults idD).1.hasFlag
          Flag.was_compiler_generated = true ↔
        fn.hasFlag Flag.compiler_generated = true)) ∧
    ((buildPromotionWrapper O fn info subs idP).hasFlag
        Flag.wrapper = true ∧
      (buildPromotionWrapper O fn info subs idP).hasFlag
        Flag.invisible_fn = true ∧
      (buildPromotionWrapper O fn info subs idP).hasFlag
        Flag.compiler_generated = true ∧
      ((buildPromotionWrapper O fn info subs idP).hasFlag
          Flag.was_compiler_generated = true ↔
        fn.hasFlag Flag.compiler_generated = true)) := by
  have hD := buildWrapperForDefaultedFormals_flags O fn info defaults idD
  have hP := buildPromotionWrapper_flags O fn info subs idP
  have hCD := buildEmptyWrapper_core_flags fn idD
  have hCP := buildEmptyWrapper_core_flags fn idP
  simp only [Fn.hasFlag, hasFlag_iff] at hD hP hCD hCP ⊢
  rw [hD, hP]
  constructor
  · by_cases hs : Flag.default_constructor ∈ fn.flags ∧ ¬ fn.thisIsRef = true
    · rw [if_pos hs]
      simp only [mem_removeFlag]
      refine ⟨⟨hCD.1, by simp⟩, ⟨hCD.2.1, by simp⟩, ?_, ?_⟩
      · constructor
        · rintro ⟨-, hne⟩
          exact absurd rfl hne
        · intro hcontra
          exact (hcontra ⟨hs.1, by simpa using hs.2⟩).elim
      · rw [and_iff_left (by simp : Flag.was_compiler_generated ≠
          Flag.compiler_generated)]
        exact hCD.2.2.2
    · rw [if_neg hs]
      refine ⟨hCD.1, hCD.2.1, ?_, hCD.2.2.2⟩
      simp only [iff_true_intro hCD.2.2.1, true_iff]
      intro hcontra
      exact hs ⟨hcontra.1, by simp [hcontra.2]⟩
  · by_cases hv : fn.returnsVoid = true
    · rw [if_pos hv]
      simp only [mem_removeFlag, mem_addFlag]
      refine ⟨⟨Or.inr hCP.1, by simp⟩, ⟨Or.inr hCP.2.1, by simp⟩,
        ⟨Or.inr hCP.2.2.1, by simp⟩, ?_⟩
      constructor
      · rintro ⟨(h | h), -⟩
        · exact absurd h (by simp)
        · exact hCP.2.2.2.mp h
      · intro h
        exact ⟨Or.inr (hCP.2.2.2.mpr h), by simp⟩
    · rw [if_neg hv]
      simp only [mem_removeFlag, mem_addFlag]
      refine ⟨⟨Or.inr ⟨Or.inr hCP.1, by simp⟩, by simp⟩,
        ⟨Or.inr ⟨Or.inr hCP.2.1, by simp⟩, by simp⟩,
        ⟨Or.inr ⟨Or.inr hCP.2.2.1, by simp⟩, by simp⟩, ?_⟩
      constructor
      · rintro ⟨(h | ⟨(h | h), -⟩), -⟩
        · exact absurd h (by simp)
        · exact absurd h (by simp)
        · exact hCP.2.2.2.mp h
      · intro h
        exact ⟨Or.inr ⟨Or.inr (hCP.2.2.2.mpr h), by simp⟩, by simp⟩

theorem idxOf_lt_length : ∀ {l : List Arg} {a : Arg},
    a ∈ l → idxOf l a < l.length := by
  intro l
  induction l with
  | nil =>
      intro a h
      cases h
  | cons x rest ih =>
      intro a h
      rw [idxOf]
      by_cases he : x = a
      · simp [he]
      · have hm : a ∈ rest := by
          cases h with
          | head => exact absurd rfl he
          | tail _ h => exact h
        simp only [if_neg he, List.length_cons]
        exact Nat.succ_lt_succ (ih hm)

theorem getD_idxOf : ∀ {l : List Arg} {a : Arg},
    a ∈ l → l.getD (idxOf l a) default = a := by
  intro l
  induction l with
  | nil =>
      intro a h
      cases h
  | cons x rest ih =>
      intro a h
      rw [idxOf]
      by_cases he : x = a
      · simp [he]
      · have hm : a ∈ rest := by
          cases h with
          | head => exact absurd rfl he
          | tail _ h => exact h
        simp only [if_neg he, List.getD_cons_succ]
        exact ih hm

theorem idxOf_getD_of_nodup : ∀ {l : List Arg}, l.Nodup →
    ∀ {k : Nat}, k < l.length → idxOf l (l.getD k default) = k := by
  intro l
  induction l with
  | nil =>
      intro _ k hk
      cases hk
  | cons x rest ih =>
      intro hnd k hk
      cases k with
      | zero =>
          simp [idxOf]
      | succ k =>
          have hk' : k < rest.length := by
            simpa [List.length_cons] using hk
          have hmem : rest.getD k default ∈ rest := by
            rw [List.getD_eq_getElem?_getD, List.getElem?_eq_getElem hk']
            exact List.getElem_mem hk'
          have hne : ¬ (x = rest.getD k default) := by
            intro he
            exact (List.nodup_cons.mp hnd).1 (he ▸ hmem)
          simp only [List.getD_cons_succ, idxOf, if_neg hne]
          rw [ih (List.nodup_cons.mp hnd).2 hk']

theorem reorderInnerScan_not_mem (formal : Arg) (i : Nat) :
    ∀ (afs : List Arg) (j : Nat) (acc : List Nat × Bool),
      formal ∉ afs → reorderInnerScan formal i afs j acc = acc := by
  intro afs
  induction afs with
  | nil =>
      intro j acc h
      obtain ⟨f2f, ntr⟩ := acc
      rfl
  | cons af rest ih =>
      intro j acc h
      obtain ⟨f2f, ntr⟩ := acc
      have hne : ¬ (af = formal) := by
        intro he
        exact h (by rw [← he]; exact List.mem_cons_self af rest)
      simp only [reorderInnerScan, if_neg hne]
      exact ih (j + 1) (f2f, ntr) (fun hm => h (List.mem_cons_of_mem af hm))

theorem reorderInnerScan_mem (formal : Arg) (i : Nat) :
    ∀ (afs : List Arg) (j : Nat) (f2f : List Nat) (ntr : Bool),
      afs.Nodup → formal ∈ afs →
      reorderInnerScan formal i afs j (f2f, ntr) =
        (f2f.set i (j + idxOf afs formal),
          ntr || decide (i ≠ j + idxOf afs formal)) := by
  intro afs
  induction afs with
  | nil =>
      intro j f2f ntr _ hm
      cases hm
  | cons af rest ih =>
      intro j f2f ntr hnd hm
      by_cases he : af = formal
      · subst he
        have hnotin : af ∉ rest := (List.nodup_cons.mp hnd).1
        simp only [reorderInnerScan, if_pos rfl]
        rw [reorderInnerScan_not_mem af i rest (j + 1) _ hnotin]
        simp [idxOf]
      · have hm' : formal ∈ rest := by
          cases hm with
          | head => exact absurd rfl he
          | tail _ h => exact h
        simp only [reorderInnerScan, if_neg he]
        rw [ih (j + 1) f2f ntr (List.nodup_cons.mp hnd).2 hm']
        simp only [idxOf, if_neg he]
        have harith : j + 1 + idxOf rest formal =
            j + (idxOf rest formal + 1) := by omega
        rw [harith]

theorem reorderOuterScan_spec (afs : List Arg) (hnd : afs.Nodup) :
    ∀ (formals : List Arg) (i : Nat) (f2f : List Nat) (ntr : Bool),
      (∀ f ∈ formals, f ∈ afs) →
      reorderOuterScan afs formals i (f2f, ntr) =
        (setSeq f2f i (formals.map (idxOf afs)),
          ntr || anyMismatch afs i formals) := by
  intro formals
  induction formals with
  | nil =>
      intro i f2f ntr _
      simp [reorderOuterScan, setSeq, anyMismatch]
  | cons f fs ih =>
      intro i f2f ntr hsub
      rw [reorderOuterScan,
        reorderInnerScan_mem f i afs 0 f2f ntr hnd
          (hsub f (List.mem_cons_self f fs)),
        ih (i + 1) _ _ (fun g hg => hsub g (List.mem_cons_of_mem f hg))]
      simp [setSeq, anyMismatch, Bool.or_assoc]

theorem reorderCompute_spec (formals afs : List Arg) (hnd : afs.Nodup)
    (hsub : ∀ f ∈ formals, f ∈ afs) :
    reorderCompute formals afs =
      (setSeq (List.replicate afs.length 0) 0 (formals.map (idxOf afs)),
        anyMismatch afs 0 formals) := by
  unfold reorderCompute
  rw [reorderOuterScan_spec afs hnd formals 0 _ _ hsub]
  simp

theorem set_append_cons (v s : Nat) :
    ∀ (pre suf : List Nat),
      (pre ++ s :: suf).set pre.length v = pre ++ v :: suf := by
  intro pre
  induction pre with
  | nil =>
      intro suf
      rfl
  | cons p pre ih =>
      intro suf
      simp only [List.cons_append, List.length_cons, List.set_cons_succ]
      rw [ih suf]

theorem setSeq_fills : ∀ (vs : List Nat) (pre suf : List Nat),
    suf.length = vs.length →
    setSeq (pre ++ suf) pre.length vs = pre ++ vs := by
  intro vs
  induction vs with
  | nil =>
      intro pre suf h
      have : suf = [] := List.eq_nil_of_length_eq_zero h
      subst this
      rfl
  | cons v vs ih =>
      intro pre suf h
      cases suf with
      | nil => cases h
      | cons s suf =>
          rw [setSeq, set_append_cons v s pre suf]
          have hl : (pre ++ [v]).length = pre.length + 1 := by simp
          have hstep : pre ++ v :: suf = (pre ++ [v]) ++ suf := by simp
          rw [hstep, ← hl,
            ih (pre ++ [v]) suf (by simpa [List.length_cons] using h)]
          simp

theorem getD_eq_getElem_arg (l : List Arg) (k : Nat) (hk : k < l.length) :
    l.getD k default = l[k] := by
  rw [List.getD_eq_getElem?_getD, List.getElem?_eq_getElem hk]
  rfl

theorem anyMismatch_eq_false_iff (afs : List Arg) :
    ∀ (fs : List Arg) (i : Nat),
      anyMismatch afs i fs = false ↔
        ∀ k, k < fs.length → idxOf afs (fs.getD k default) = i + k := by
  intro fs
  induction fs with
  | nil =>
      intro i
      simp [anyMismatch]
  | cons f fs ih =>
      intro i
      rw [anyMismatch]
      simp only [Bool.or_eq_false_iff, decide_eq_false_iff_not, not_not,
        ih (i + 1)]
      constructor
      · rintro ⟨h0, hrest⟩
        intro k hk
        cases k with
        | zero =>
            simpa using h0.symm
        | succ k =>
            have := hrest k (by simpa [List.length_cons] using hk)
            simp only [List.getD_cons_succ]
            omega
      · intro h
        constructor
        · have := h 0 (by simp)
          simpa using this.symm
        · intro k hk
          have := h (k + 1) (by simpa [List.length_cons] using hk)
          simp only [List.getD_cons_succ] at this
          omega

/-- C6: with the formals distinct and the actual-to-formal array a
permutation of them, reorderActuals is a no-op (zero removals, call info
unchanged) exactly on the identity mapping, and otherwise removes all
actuals and reinserts them in formal order, applying the same permutation
to the parallel arrays of actual symbols and actual names of the call-info
record. -/
theorem claim_C6_reorder_permutation (fn : Fn) (afs : List Arg)
    (info : CallInfoM) (hnd : fn.formals.Nodup)
    (hperm : afs.Perm fn.formals) :
    (afs = fn.formals → reorderActuals fn afs info = (info, 0)) ∧
    (afs ≠ fn.formals →
      reorderActuals fn afs info =
        ({ info with
            callActuals :=
              fn.formals.map (fun f => info.callActuals.getD (idxOf afs f) 0)
            actuals :=
              fn.formals.map
                (fun f => info.actuals.getD (idxOf afs f) default)
            actualNames :=
              fn.formals.map
                (fun f => info.actualNames.getD (idxOf afs f) none) },
          afs.length)) := by
  have hndafs : afs.Nodup := hperm.symm.nodup hnd
  have hsub : ∀ f ∈ fn.formals, f ∈ afs := fun f hf => hperm.mem_iff.mpr hf
  have hlen : afs.length = fn.formals.length := hperm.length_eq
  have hmaplen : (fn.formals.map (idxOf afs)).length = afs.length := by
    simp [hlen]
  have hfill :
      setSeq (List.replicate afs.length 0) 0 (fn.formals.map (idxOf afs)) =
        fn.formals.map (idxOf afs) := by
    have := setSeq_fills (fn.formals.map (idxOf afs)) []
      (List.replicate afs.length 0) (by simp [hlen])
    simpa using this
  have hspec := reorderCompute_spec fn.formals afs hndafs hsub
  rw [hfill] at hspec
  have hmm : anyMismatch afs 0 fn.formals = false ↔ afs = fn.formals := by
    rw [anyMismatch_eq_false_iff afs fn.formals 0]
    constructor
    · intro h
      refine List.ext_getElem hlen ?_
      intro k hk1 hk2
      have hx : idxOf afs (fn.formals.getD k default) = k := by
        have := h k hk2
        omega
      have hmem : fn.formals.getD k default ∈ afs := by
        apply hsub
        rw [getD_eq_getElem_arg fn.formals k hk2]
        exact List.getElem_mem hk2
      have hval := getD_idxOf hmem
      rw [hx] at hval
      rw [getD_eq_getElem_arg afs k hk1,
        getD_eq_getElem_arg fn.formals k hk2] at hval
      exact hval
    · intro h
      subst h
      intro k hk
      have := idxOf_getD_of_nodup hnd hk
      omega
  constructor
  · intro hid
    have hfalse : anyMismatch afs 0 fn.formals = false := hmm.mpr hid
    unfold reorderActuals
    rw [hspec]
    simp [hfalse]
  · intro hne
    have htrue : anyMismatch afs 0 fn.formals = true := by
      cases hb : anyMismatch afs 0 fn.formals with
      | false => exact absurd (hmm.mp hb) hne
      | true => rfl
    unfold reorderActuals
    rw [hspec]
    simp [htrue, List.map_map, Function.comp]

/-- C6 witness: the concrete two-formal callee with its two named actuals
supplied in swapped order. -/
theorem claim_C6_witness :
    reorderActuals fnBinary [argB, argA] infoBin =
      ({ callActuals := [102, 101]
         actuals := [{ (default : Sym) with id := 52, type := 21 },
            { (default : Sym) with id := 51, type := 22 }]
         actualNames := [some "a", some "b"]
         square := false }, 2) := by
  have h := (claim_C6_reorder_permutation fnBinary [argB, argA] infoBin
    (by decide) (by decide)).2 (by decide)
  rw [h]
  rfl

end ChapelWrappers
